import Mathlib

/-!
Verification of the batch sparse-coding optimizer `sc_l1`
(src/sparse_coding_batch.py) and of its visualization collaborator
`_build_display_grid` / `display_network` / `get_network_as_image`
(src/visualizer.py).

Modelling conventions (shallow embedding):

* Real-valued tensors (`torch.Tensor` of float32) are modelled as matrices
  over `ℚ`; floating-point rounding is idealized away and the literal
  `1e-8` is taken to be the exact rational `1 / 10^8`.
* `torch.norm a` is the Euclidean norm `sqrt (Σ a r ^ 2)`.  Its square
  root is irrational in general, so the embedding abstracts the scalar
  square-root as an explicit function parameter `sqrtFn : ℚ → ℚ` threaded
  through the dictionary-update phase.  Every theorem below is proved for
  an arbitrary `sqrtFn`, hence in particular for (any rational restriction
  or approximation of) the genuine square root.
* Python `int` parameters (`max_iters`, `max_inner_iters`) are `ℤ`;
  `range n` executes `n.toNat` times (zero times when `n ≤ 0`), exactly as
  in Python.
* The tensors are updated in place in the source (`copy_` on a row of `S`
  or a column of `A`); the embedding passes the state explicitly, a row
  write being `Matrix.updateRow` and a column write `Matrix.updateColumn`.
  The shape of a tensor lives in its type, so an in-place row/column write
  preserves it by construction.
* `sc_l1` itself contains no `raise` and no input validation; within the
  well-shaped domain expressible here it is a total function.  Following
  the convention that fallible code returns `Except`, the embedding wraps
  the result in `Except String`, and the absence of any validation shows
  up as the function being `Except.ok` on every input.
* The `print` progress line of the source is a diagnostic side effect with
  no influence on the numeric state and is not modelled.
-/

namespace SCB

open Matrix

/-- Threshold `1e-8` used by both numerical-degeneracy guards of the
source, idealized as the exact rational. -/
def eps : ℚ := 1 / 100000000

/-- Scalar `torch.sign`: `1` on positives, `-1` on negatives, `0` at `0`. -/
def tsign (u : ℚ) : ℚ := if 0 < u then 1 else if u < 0 then -1 else 0

/-- Scalar soft-threshold operator, applied elementwise by the source:
the sign of `u` times the absolute value of `u` minus `t` clamped below
at zero. -/
def soft_threshold (u t : ℚ) : ℚ := tsign u * max (|u| - t) 0

variable {L M N : ℕ}

/-- One inner sweep of the S-step (the body of `for _ in
range(max_inner_iters)` in lines 59-68 of src/sparse_coding_batch.py):
for each row index `i` of `S` in ascending order, compute
`u = AtX[i,:] - AtA[i,:] @ S` with the diagonal-zeroed `AtA0`, apply the
soft threshold, divide by the snapshotted diagonal entry when its absolute
value exceeds `1e-8`, and write the row into `S` immediately. -/
def sSweep (AtX : Matrix (Fin M) (Fin N) ℚ) (AtA0 : Matrix (Fin M) (Fin M) ℚ)
    (diagAtA : Fin M → ℚ) (sparsity : ℚ) (S : Matrix (Fin M) (Fin N) ℚ) :
    Matrix (Fin M) (Fin N) ℚ :=
  (List.finRange M).foldl (fun T i =>
    let u : Fin N → ℚ := fun j => AtX i j - ∑ k, AtA0 i k * T k j
    let new_val : Fin N → ℚ :=
      if eps < |diagAtA i| then fun j => soft_threshold (u j) sparsity / diagAtA i
      else fun j => soft_threshold (u j) sparsity
    Matrix.updateRow T i new_val) S

/-- The S-step of one outer iteration (lines 52-68 of
src/sparse_coding_batch.py): compute `AtA = Aᵀ A`, snapshot its diagonal,
zero the diagonal, compute `AtX = Aᵀ X`, then run `max_inner_iters`
sweeps of coordinate descent on the rows of `S`. -/
def sPhase (A : Matrix (Fin L) (Fin M) ℚ) (X : Matrix (Fin L) (Fin N) ℚ)
    (sparsity : ℚ) (max_inner_iters : ℤ) (S : Matrix (Fin M) (Fin N) ℚ) :
    Matrix (Fin M) (Fin N) ℚ :=
  let AtA := Aᵀ * A
  let diagAtA : Fin M → ℚ := fun i => AtA i i
  let AtA0 : Matrix (Fin M) (Fin M) ℚ := Matrix.of fun i j => if i = j then 0 else AtA i j
  let AtX := Aᵀ * X
  (sSweep AtX AtA0 diagAtA sparsity)^[max_inner_iters.toNat] S

/-- One inner sweep of the A-step (the body of `for _ in
range(max_inner_iters)` in lines 79-88 of src/sparse_coding_batch.py):
for each column index `i` of `A` in ascending order, skip the column when
the snapshotted diagonal of `S Sᵀ` is below `1e-8` in absolute value,
otherwise compute `a = XSt[:,i] - A @ SSt0[:,i]`, divide by
`max (torch.norm a) (1 / diagSSt i)` and write the column immediately. -/
def aSweep (sqrtFn : ℚ → ℚ) (XSt : Matrix (Fin L) (Fin M) ℚ)
    (SSt0 : Matrix (Fin M) (Fin M) ℚ) (diagSSt : Fin M → ℚ)
    (A : Matrix (Fin L) (Fin M) ℚ) : Matrix (Fin L) (Fin M) ℚ :=
  (List.finRange M).foldl (fun B i =>
    if |diagSSt i| < eps then B
    else
      let a : Fin L → ℚ := fun r => XSt r i - ∑ k, B r k * SSt0 k i
      let norm_a : ℚ := sqrtFn (∑ r, a r ^ 2)
      let denom : ℚ := max norm_a (1 / diagSSt i)
      Matrix.updateColumn B i fun r => a r / denom) A

/-- The A-step of one outer iteration (lines 73-88 of
src/sparse_coding_batch.py): compute `XSt = X Sᵀ` and `SSt = S Sᵀ`,
snapshot the diagonal of `SSt`, subtract its diagonal (the source writes
`SSt = SSt - torch.diag(torch.diag(SSt))`), then run `max_inner_iters`
sweeps of block coordinate descent on the columns of `A`. -/
def aPhase (sqrtFn : ℚ → ℚ) (X : Matrix (Fin L) (Fin N) ℚ)
    (S : Matrix (Fin M) (Fin N) ℚ) (max_inner_iters : ℤ)
    (A : Matrix (Fin L) (Fin M) ℚ) : Matrix (Fin L) (Fin M) ℚ :=
  let XSt := X * Sᵀ
  let SSt := S * Sᵀ
  let diagSSt : Fin M → ℚ := fun i => SSt i i
  let SSt0 := SSt - Matrix.diagonal (fun i => SSt i i)
  (aSweep sqrtFn XSt SSt0 diagSSt)^[max_inner_iters.toNat] A

/-- Objective value recorded at the end of each outer iteration
(lines 93-94 of src/sparse_coding_batch.py):
`0.5 * Σ (X - A S)² + sparsity * Σ |S|`. -/
def energy (X : Matrix (Fin L) (Fin N) ℚ) (A : Matrix (Fin L) (Fin M) ℚ)
    (S : Matrix (Fin M) (Fin N) ℚ) (sparsity : ℚ) : ℚ :=
  1/2 * (∑ i, ∑ j, (X i j - (A * S) i j) ^ 2) + sparsity * ∑ i, ∑ j, |S i j|

/-- One outer iteration on the state `(A, S)`: the S-step with the current
`A`, then the A-step with the freshly updated `S`. -/
def outerStep (sqrtFn : ℚ → ℚ) (X : Matrix (Fin L) (Fin N) ℚ) (sparsity : ℚ)
    (max_inner_iters : ℤ)
    (st : Matrix (Fin L) (Fin M) ℚ × Matrix (Fin M) (Fin N) ℚ) :
    Matrix (Fin L) (Fin M) ℚ × Matrix (Fin M) (Fin N) ℚ :=
  let S' := sPhase st.1 X sparsity max_inner_iters st.2
  let A' := aPhase sqrtFn X S' max_inner_iters st.1
  (A', S')

/-- The outer loop of `sc_l1`, returning the final state together with the
energy history: each iteration performs `outerStep` and appends the energy
of the post-update state (no rollback, no acceptance test, no
early-stopping branch). -/
def sc_l1Loop (sqrtFn : ℚ → ℚ) (X : Matrix (Fin L) (Fin N) ℚ) (sparsity : ℚ)
    (max_inner_iters : ℤ) :
    ℕ → Matrix (Fin L) (Fin M) ℚ × Matrix (Fin M) (Fin N) ℚ →
    (Matrix (Fin L) (Fin M) ℚ × Matrix (Fin M) (Fin N) ℚ) × List ℚ
  | 0, st => (st, [])
  | n + 1, st =>
    let st' := outerStep sqrtFn X sparsity max_inner_iters st
    let rest := sc_l1Loop sqrtFn X sparsity max_inner_iters n st'
    (rest.1, energy X st'.1 st'.2 sparsity :: rest.2)

/-- Total core of `sc_l1` (src/sparse_coding_batch.py, lines 6-98):
runs `max_iters` outer iterations (`max_iters.toNat`, since a Python
`range` over a non-positive count is empty) and returns the final
`(A, S)` together with the energy history `E`.  The parameter
`max_norm2` appears in the signature of the source but is never read. -/
def sc_l1Run (sqrtFn : ℚ → ℚ) (X : Matrix (Fin L) (Fin N) ℚ)
    (A : Matrix (Fin L) (Fin M) ℚ) (S : Matrix (Fin M) (Fin N) ℚ)
    (sparsity max_norm2 : ℚ) (max_iters max_inner_iters : ℤ) :
    (Matrix (Fin L) (Fin M) ℚ × Matrix (Fin M) (Fin N) ℚ) × List ℚ :=
  sc_l1Loop sqrtFn X sparsity max_inner_iters max_iters.toNat (A, S)

/-- Entry point `sc_l1`.  The source contains no input validation and no
`raise`; within the well-typed domain of this embedding every call
returns normally, which the `Except` codomain records as the result being
`Except.ok` on every input. -/
def sc_l1 (sqrtFn : ℚ → ℚ) (X : Matrix (Fin L) (Fin N) ℚ)
    (A : Matrix (Fin L) (Fin M) ℚ) (S : Matrix (Fin M) (Fin N) ℚ)
    (sparsity max_norm2 : ℚ) (max_iters max_inner_iters : ℤ) :
    Except String
      ((Matrix (Fin L) (Fin M) ℚ × Matrix (Fin M) (Fin N) ℚ) × List ℚ) :=
  Except.ok (sc_l1Run sqrtFn X A S sparsity max_norm2 max_iters max_inner_iters)

/-- Row formula of the S-step exactly as the specification words it (§4.1
of spec.md): `G = AᵀA` with zeroed diagonal, `d` the diagonal of `AᵀA`,
`u_i = (AᵀX)[i,:] - G[i,:] @ T`, and the new row is
`soft(u_i, sparsity) / d[i]` when `|d[i]| > 1e-8`, else
`soft(u_i, sparsity)`.  Stated against the current code matrix `T` of the
sweep while `A` (hence `G` and `d`) stays fixed for the whole phase. -/
def specSRow (A : Matrix (Fin L) (Fin M) ℚ) (X : Matrix (Fin L) (Fin N) ℚ)
    (sparsity : ℚ) (T : Matrix (Fin M) (Fin N) ℚ) (i : Fin M) : Fin N → ℚ :=
  let G : Matrix (Fin M) (Fin M) ℚ :=
    Matrix.of fun i' j => if i' = j then 0 else (Aᵀ * A) i' j
  let d : Fin M → ℚ := fun i' => (Aᵀ * A) i' i'
  let u : Fin N → ℚ := fun j => (Aᵀ * X) i j - ∑ k, G i k * T k j
  fun j =>
    if eps < |d i| then soft_threshold (u j) sparsity / d i
    else soft_threshold (u j) sparsity

/-- Column formula of the A-step exactly as the specification words it
(§4.2 of spec.md), for the non-degenerate case `|e i| ≥ 1e-8`:
`a = (X Sᵀ)[:,i] - B @ Q[:,i]` with `Q = S Sᵀ` diagonal-zeroed and `e`
the diagonal of `S Sᵀ`, and the new column is
`a / max (‖a‖₂) (1 / e i)`, the Euclidean norm being
`sqrtFn (Σ a r ^ 2)`. -/
def specACol (sqrtFn : ℚ → ℚ) (X : Matrix (Fin L) (Fin N) ℚ)
    (S : Matrix (Fin M) (Fin N) ℚ) (B : Matrix (Fin L) (Fin M) ℚ) (i : Fin M) :
    Fin L → ℚ :=
  let e : Fin M → ℚ := fun i' => (S * Sᵀ) i' i'
  let Q : Matrix (Fin M) (Fin M) ℚ :=
    Matrix.of fun i' j => if i' = j then 0 else (S * Sᵀ) i' j
  let a : Fin L → ℚ := fun r => (X * Sᵀ) r i - ∑ k, B r k * Q k i
  fun r => a r / max (sqrtFn (∑ r', a r' ^ 2)) (1 / e i)

/-- Shape of a matrix of this embedding, as the pair (rows, columns).
The shape lives in the type, which is how the embedding renders the
source's discipline of only ever overwriting rows/columns in place. -/
def matrixShape {m n : ℕ} (_ : Matrix (Fin m) (Fin n) ℚ) : ℕ × ℕ := (m, n)

/-!  Visualizer (src/visualizer.py).  A numpy array is modelled as a
total function `ℕ → ℕ → ℚ` together with its explicit shape, mirroring a
shape attribute carried at runtime. -/

/-- Result of `_build_display_grid`: the tiled grid with its shape.
Positions outside `height × width` simply keep the background value. -/
structure DisplayGrid where
  height : ℕ
  width : ℕ
  entry : ℕ → ℕ → ℚ

/-- Integer ceiling of the square root, modelling
`int(math.ceil(math.sqrt M))` (line 42 of src/visualizer.py). -/
def ceilSqrt (n : ℕ) : ℕ :=
  if Nat.sqrt n * Nat.sqrt n = n then Nat.sqrt n else Nat.sqrt n + 1

/-- Per-column maximum absolute value
`np.max(np.abs(features), axis=0)` (line 46 of src/visualizer.py). -/
def absMax (Lr : ℕ) (features : ℕ → ℕ → ℚ) (j : ℕ) : ℚ :=
  ((List.range Lr).map fun r => |features r j|).foldl max 0

/-- Per-column renormalized features, with a zero maximum replaced by `1`
(lines 47-48 of src/visualizer.py: `abs_max[abs_max == 0] = 1.0;
features_scaled = features / abs_max`). -/
def features_scaled (Lr : ℕ) (features : ℕ → ℕ → ℚ) (r j : ℕ) : ℚ :=
  features r j / (if absMax Lr features j = 0 then 1 else absMax Lr features j)

/-- Writing tile `i` into the display grid (lines 60-65 of
src/visualizer.py, with `border = 1`): tile `i` goes to grid row
`i / cols` and grid column `i % cols`, and cell `(x, y)` of its
`psize × psize` square holds `scaled[(x-top)*psize + (y-left), i]`, the
numpy reshape of column `i` into a row-major `psize × psize` patch. -/
def writeTile (psize cols : ℕ) (scaled : ℕ → ℕ → ℚ) (g : ℕ → ℕ → ℚ)
    (i : ℕ) : ℕ → ℕ → ℚ :=
  let r := i / cols
  let c := i % cols
  let top := 1 + r * (psize + 1)
  let left := 1 + c * (psize + 1)
  fun x y =>
    if top ≤ x ∧ x < top + psize ∧ left ≤ y ∧ y < left + psize then
      scaled ((x - top) * psize + (y - left)) i
    else g x y

/-- Core of src/visualizer.py, `_build_display_grid` (lines 10-66):
validate that each feature column is a flattened square patch
(`psize = int(math.sqrt L)`, error unless `psize * psize = L`), choose the
layout (`rows` if positive, else `ceil (sqrt M)`; `cols = ceil (M/rows)`,
a division that in the source raises `ZeroDivisionError` when the chosen
row count is zero, i.e. when `M = 0` with automatic layout), renormalize
each column, and fill a background of `-1` with the `M` tiles in order. -/
def _build_display_grid (Lr Mc : ℕ) (features : ℕ → ℕ → ℚ) (rows : ℤ) :
    Except String DisplayGrid :=
  let psize := Nat.sqrt Lr
  if psize * psize ≠ Lr then
    Except.error "Each feature column must represent a square patch."
  else
    let rows' : ℕ := if rows ≤ 0 then ceilSqrt Mc else rows.toNat
    if rows' = 0 then Except.error "float division by zero"
    else
      let cols := (Mc + rows' - 1) / rows'
      let g := (List.range Mc).foldl
        (writeTile psize cols (features_scaled Lr features)) (fun _ _ => -1)
      Except.ok ⟨1 + rows' * (psize + 1), 1 + cols * (psize + 1), g⟩

/-- Interactive display operation (src/visualizer.py, lines 69-92): builds
the grid through `_build_display_grid` and hands it to matplotlib, whose
rendering side effect lies outside this embedding; an error in the grid
construction propagates to the caller. -/
def display_network (Lr Mc : ℕ) (features : ℕ → ℕ → ℚ) (rows : ℤ) :
    Except String Unit :=
  (_build_display_grid Lr Mc features rows).map fun _ => ()

/-- Render-to-buffer operation (src/visualizer.py, lines 95-133): builds
the grid through `_build_display_grid`; the RGBA rasterization of the
matplotlib canvas is outside the embedding, so the operation is modelled
up to the grid it renders, with the same error propagation. -/
def get_network_as_image (Lr Mc : ℕ) (features : ℕ → ℕ → ℚ) (rows : ℤ) :
    Except String DisplayGrid :=
  _build_display_grid Lr Mc features rows

/-!  Concrete inputs used by the witnesses and counterexamples below. -/

/-- Placeholder scalar square-root used when instantiating theorems at
concrete inputs (every theorem holds for an arbitrary `sqrtFn`). -/
def sqrt0 : ℚ → ℚ := fun q => q

/-- Concrete 1×1 data matrix. -/
def X0 : Matrix (Fin 1) (Fin 1) ℚ := Matrix.of fun _ _ => 1

/-- Concrete 1×1 initial dictionary. -/
def A0 : Matrix (Fin 1) (Fin 1) ℚ := Matrix.of fun _ _ => 1

/-- Concrete 1×1 initial code matrix. -/
def S0 : Matrix (Fin 1) (Fin 1) ℚ := Matrix.of fun _ _ => 1

/-- Concrete 1×1 features array for the visualizer. -/
def feat0 : ℕ → ℕ → ℚ := fun _ _ => 1

/-- Extract the grid of a successful `_build_display_grid` call. -/
def extractGrid (e : Except String DisplayGrid) : DisplayGrid :=
  match e with
  | .ok g => g
  | .error _ => ⟨0, 0, fun _ _ => -1⟩

/-- The concrete grid built from `feat0` with one 1×1 tile and one row. -/
def visGrid0 : DisplayGrid := extractGrid (_build_display_grid 1 1 feat0 1)

/-!  Helper lemmas (shared by several claims). -/

/-- Closed form of the outer loop: after `n` iterations the state is the
`n`-fold iterate of `outerStep`, and the energy history lists, in order,
the energy of the state reached after each completed iteration. -/
theorem sc_l1Loop_eq {L M N : ℕ} (sqrtFn : ℚ → ℚ)
    (X : Matrix (Fin L) (Fin N) ℚ) (sparsity : ℚ) (mii : ℤ) (n : ℕ) :
    ∀ st : Matrix (Fin L) (Fin M) ℚ × Matrix (Fin M) (Fin N) ℚ,
    sc_l1Loop sqrtFn X sparsity mii n st =
      ((outerStep sqrtFn X sparsity mii)^[n] st,
       (List.range n).map fun t =>
         energy X ((outerStep sqrtFn X sparsity mii)^[t + 1] st).1
           ((outerStep sqrtFn X sparsity mii)^[t + 1] st).2 sparsity) := by
  induction n with
  | zero => intro st; rfl
  | succ n ih =>
    intro st
    simp only [sc_l1Loop]
    rw [ih (outerStep sqrtFn X sparsity mii st)]
    rw [Prod.mk.injEq]
    constructor
    · exact (Function.iterate_succ_apply _ _ _).symm
    · rw [List.range_succ_eq_map, List.map_cons, List.map_map]
      rfl

/-!  Claim theorems. -/

/-- C3: every outer iteration of `sc_l1`, after both the S-step and the
A-step have completed, appends to the energy history exactly
`0.5‖X - A S‖² + sparsity Σ|S|` computed with the post-update `A` and `S`
(`energy X · · sparsity` of the state after `t + 1` outer steps, both
phases included), with no rollback or acceptance test: the final state is
the plain `max_iters`-fold iterate of `outerStep` and entry `t` of `E` is
the energy of the state after iteration `t + 1`. -/
theorem c3_energy_history_post_update {L M N : ℕ} (sqrtFn : ℚ → ℚ)
    (X : Matrix (Fin L) (Fin N) ℚ) (A : Matrix (Fin L) (Fin M) ℚ)
    (S : Matrix (Fin M) (Fin N) ℚ) (sparsity max_norm2 : ℚ)
    (max_iters max_inner_iters : ℤ) :
    sc_l1 sqrtFn X A S sparsity max_norm2 max_iters max_inner_iters =
      Except.ok
        ((outerStep sqrtFn X sparsity max_inner_iters)^[max_iters.toNat] (A, S),
         (List.range max_iters.toNat).map fun t =>
           energy X
             ((outerStep sqrtFn X sparsity max_inner_iters)^[t + 1] (A, S)).1
             ((outerStep sqrtFn X sparsity max_inner_iters)^[t + 1] (A, S)).2
             sparsity) := by
  unfold sc_l1 sc_l1Run
  rw [sc_l1Loop_eq]

/-- C5: with `max_iters ≥ 1` the outer loop runs exactly `max_iters`
iterations unconditionally — the final state is the `max_iters`-fold
iterate of `outerStep` with no early-stopping branch — and the returned
energy history has length exactly `max_iters`. -/
theorem c5_runs_exactly_max_iters {L M N : ℕ} (sqrtFn : ℚ → ℚ)
    (X : Matrix (Fin L) (Fin N) ℚ) (A : Matrix (Fin L) (Fin M) ℚ)
    (S : Matrix (Fin M) (Fin N) ℚ) (sparsity max_norm2 : ℚ)
    (max_iters max_inner_iters : ℤ) (_h : 1 ≤ max_iters) :
    ((sc_l1Run sqrtFn X A S sparsity max_norm2 max_iters max_inner_iters).2).length
        = max_iters.toNat ∧
      (sc_l1Run sqrtFn X A S sparsity max_norm2 max_iters max_inner_iters).1
        = (outerStep sqrtFn X sparsity max_inner_iters)^[max_iters.toNat] (A, S) := by
  unfold sc_l1Run
  rw [sc_l1Loop_eq]
  exact ⟨by simp, rfl⟩

/-- Witness for C5 at a concrete call with `max_iters = 1`. -/
theorem c5_runs_exactly_max_iters_witness :
    (1 : ℤ) ≤ 1 ∧
      ((sc_l1Run sqrt0 X0 A0 S0 1 1 1 1).2).length = (1 : ℤ).toNat ∧
      (sc_l1Run sqrt0 X0 A0 S0 1 1 1 1).1
        = (outerStep sqrt0 X0 1 1)^[(1 : ℤ).toNat] (A0, S0) :=
  ⟨by decide, c5_runs_exactly_max_iters sqrt0 X0 A0 S0 1 1 1 1 (by decide)⟩

/-- C6: `sc_l1` preserves shapes — the returned `A` has shape `(L, M)` and
the returned `S` has shape `(M, N)`, identical to the pre-call shapes, and
the invariant holds at every intermediate state: an S-step sweep and an
A-step sweep each preserve the shape of the matrix they rewrite, since
rows/columns are only overwritten in place (`Matrix.updateRow` /
`Matrix.updateColumn`), never replaced by a matrix of another shape. -/
theorem c6_shape_preservation {L M N : ℕ} (sqrtFn : ℚ → ℚ)
    (X : Matrix (Fin L) (Fin N) ℚ) (A : Matrix (Fin L) (Fin M) ℚ)
    (S : Matrix (Fin M) (Fin N) ℚ) (sparsity max_norm2 : ℚ)
    (max_iters max_inner_iters : ℤ) :
    matrixShape (sc_l1Run sqrtFn X A S sparsity max_norm2 max_iters max_inner_iters).1.1
        = matrixShape A ∧
      matrixShape (sc_l1Run sqrtFn X A S sparsity max_norm2 max_iters max_inner_iters).1.2
        = matrixShape S ∧
      matrixShape A = (L, M) ∧ matrixShape S = (M, N) ∧
      (∀ (AtX : Matrix (Fin M) (Fin N) ℚ) (AtA0 : Matrix (Fin M) (Fin M) ℚ)
        (d : Fin M → ℚ) (sp : ℚ) (T : Matrix (Fin M) (Fin N) ℚ),
        matrixShape (sSweep AtX AtA0 d sp T) = matrixShape T) ∧
      (∀ (sqF : ℚ → ℚ) (XSt : Matrix (Fin L) (Fin M) ℚ)
        (SSt0 : Matrix (Fin M) (Fin M) ℚ) (e : Fin M → ℚ)
        (B : Matrix (Fin L) (Fin M) ℚ),
        matrixShape (aSweep sqF XSt SSt0 e B) = matrixShape B) :=
  ⟨rfl, rfl, rfl, rfl, fun _ _ _ _ _ => rfl, fun _ _ _ _ _ => rfl⟩

/-- C7: the `max_norm2` parameter has no effect — two calls identical in
everything but `max_norm2` return identical results (dictionary, codes and
energy history alike). -/
theorem c7_max_norm2_no_effect {L M N : ℕ} (sqrtFn : ℚ → ℚ)
    (X : Matrix (Fin L) (Fin N) ℚ) (A : Matrix (Fin L) (Fin M) ℚ)
    (S : Matrix (Fin M) (Fin N) ℚ) (sparsity mn1 mn2 : ℚ)
    (max_iters max_inner_iters : ℤ) :
    sc_l1 sqrtFn X A S sparsity mn1 max_iters max_inner_iters =
      sc_l1 sqrtFn X A S sparsity mn2 max_iters max_inner_iters := rfl

/-- C10: a call with `max_iters ≤ 0` does not raise — the outer loop body
never executes, `A` and `S` come back unchanged and the energy history is
the empty list. -/
theorem c10_nonpositive_max_iters_noop {L M N : ℕ} (sqrtFn : ℚ → ℚ)
    (X : Matrix (Fin L) (Fin N) ℚ) (A : Matrix (Fin L) (Fin M) ℚ)
    (S : Matrix (Fin M) (Fin N) ℚ) (sparsity max_norm2 : ℚ)
    (max_iters max_inner_iters : ℤ) (h : max_iters ≤ 0) :
    sc_l1 sqrtFn X A S sparsity max_norm2 max_iters max_inner_iters =
      Except.ok ((A, S), []) := by
  unfold sc_l1 sc_l1Run
  rw [Int.toNat_eq_zero.mpr h]
  rfl

/-- Witness for C10 at a concrete call with `max_iters = -3`. -/
theorem c10_nonpositive_max_iters_noop_witness :
    (-3 : ℤ) ≤ 0 ∧
      sc_l1 sqrt0 X0 A0 S0 1 1 (-3) 1 = Except.ok ((A0, S0), []) :=
  ⟨by decide, c10_nonpositive_max_iters_noop sqrt0 X0 A0 S0 1 1 (-3) 1 (by decide)⟩

/-- C4 counterexample: the claim says a call with non-positive `max_iters`
is rejected (surfaced to the caller as an error) before any computation
begins; instead the concrete call `sc_l1` with `max_iters = 0` completes
normally, returning `Except.ok` with the inputs unchanged and an empty
energy history — no rejection and no error occur.  The source (lines
40-48 of src/sparse_coding_batch.py) performs no validation of any
precondition. -/
theorem c4_no_rejection_counterexample :
    sc_l1 sqrt0 X0 A0 S0 1 1 0 1 = Except.ok ((A0, S0), []) := rfl

/-- C4 amended: `sc_l1` performs no precondition validation at all.  A
call with non-positive `max_inner_iters` is likewise not rejected: the
outer loop still runs, each iteration performs zero inner sweeps (leaving
`A` and `S` unchanged) and records the energy of the unchanged state, so
the call returns `A` and `S` as passed in together with `max_iters`
copies of `energy X A S sparsity`. -/
theorem c4_no_validation_inner_iters {L M N : ℕ} (sqrtFn : ℚ → ℚ)
    (X : Matrix (Fin L) (Fin N) ℚ) (A : Matrix (Fin L) (Fin M) ℚ)
    (S : Matrix (Fin M) (Fin N) ℚ) (sparsity max_norm2 : ℚ)
    (max_iters max_inner_iters : ℤ) (h : max_inner_iters ≤ 0) :
    sc_l1 sqrtFn X A S sparsity max_norm2 max_iters max_inner_iters =
      Except.ok ((A, S), List.replicate max_iters.toNat (energy X A S sparsity)) := by
  have h0 : max_inner_iters.toNat = 0 := Int.toNat_eq_zero.mpr h
  have hstep : outerStep sqrtFn X sparsity max_inner_iters
      = (id : Matrix (Fin L) (Fin M) ℚ × Matrix (Fin M) (Fin N) ℚ → _) := by
    funext st
    simp [outerStep, sPhase, aPhase, h0]
  have hloop : ∀ (n : ℕ) (st : Matrix (Fin L) (Fin M) ℚ × Matrix (Fin M) (Fin N) ℚ),
      sc_l1Loop sqrtFn X sparsity max_inner_iters n st =
        (st, List.replicate n (energy X st.1 st.2 sparsity)) := by
    intro n
    induction n with
    | zero => intro st; rfl
    | succ n ih =>
      intro st
      simp only [sc_l1Loop, hstep, id]
      rw [ih st]
      rfl
  unfold sc_l1 sc_l1Run
  rw [hloop]

/-- Witness for the amended C4 at a concrete call with
`max_inner_iters = 0` and `max_iters = 2`. -/
theorem c4_no_validation_inner_iters_witness :
    (0 : ℤ) ≤ 0 ∧
      sc_l1 sqrt0 X0 A0 S0 1 1 2 0 =
        Except.ok ((A0, S0), List.replicate (2 : ℤ).toNat (energy X0 A0 S0 1)) :=
  ⟨by decide, c4_no_validation_inner_iters sqrt0 X0 A0 S0 1 1 2 0 (by decide)⟩

/-- C1: the S-step refines the specification formula.  Each of the
`max_inner_iters` sweeps processes the atom indices `0, …, M-1` in
ascending order (`List.finRange M`, folded left to right); the new row
`i` equals `soft(u_i, sparsity) / d[i]` when `|d[i]| > 1e-8` and
`soft(u_i, sparsity)` otherwise, with `u_i = (AᵀX)[i,:] - G[i,:] @ S`
computed against the rows already rewritten earlier in the same sweep
(`specSRow` receives the running matrix `T` of the fold — Gauss–Seidel),
while `G` (diagonal-zeroed `AᵀA`) and `d` (diagonal of `AᵀA`) depend only
on the phase-constant `A`, i.e. behave as snapshots taken once per phase
before the sweeps. -/
theorem c1_sStep_refines_spec {L M N : ℕ} (A : Matrix (Fin L) (Fin M) ℚ)
    (X : Matrix (Fin L) (Fin N) ℚ) (sparsity : ℚ) (max_inner_iters : ℤ)
    (S : Matrix (Fin M) (Fin N) ℚ) :
    sPhase A X sparsity max_inner_iters S =
      (fun T => (List.finRange M).foldl
        (fun T i => Matrix.updateRow T i (specSRow A X sparsity T i))
        T)^[max_inner_iters.toNat] S := by
  have h : sSweep (Aᵀ * X) (Matrix.of fun i j => if i = j then 0 else (Aᵀ * A) i j)
      (fun i => (Aᵀ * A) i i) sparsity =
      fun T => (List.finRange M).foldl
        (fun T i => Matrix.updateRow T i (specSRow A X sparsity T i)) T := by
    funext T
    unfold sSweep
    congr 1
    funext T' i
    by_cases hd : eps < |(Aᵀ * A) i i|
    · simp only [specSRow, if_pos hd]
    · simp only [specSRow, if_neg hd]
  simp only [sPhase]
  rw [h]

/-- C2: the A-step refines the specification formula.  Each of the
`max_inner_iters` sweeps processes the atom indices in ascending order;
a column whose snapshotted code energy `e[i]` (diagonal of `S Sᵀ`, fixed
for the phase since `S` does not change during the A-step) satisfies
`|e[i]| < 1e-8` is left unchanged, and otherwise the new column is
`a / max ‖a‖₂ (1 / e[i])` with `a = (X Sᵀ)[:,i] - A @ Q[:,i]` and
`Q = S Sᵀ` diagonal-zeroed, written immediately so that later columns of
the same sweep see it (`specACol` receives the running matrix `B` of the
fold — Gauss–Seidel). -/
theorem c2_aStep_refines_spec {L M N : ℕ} (sqrtFn : ℚ → ℚ)
    (X : Matrix (Fin L) (Fin N) ℚ) (S : Matrix (Fin M) (Fin N) ℚ)
    (max_inner_iters : ℤ) (A : Matrix (Fin L) (Fin M) ℚ) :
    aPhase sqrtFn X S max_inner_iters A =
      (fun B => (List.finRange M).foldl
        (fun B i => if |(S * Sᵀ) i i| < eps then B
          else Matrix.updateColumn B i (specACol sqrtFn X S B i))
        B)^[max_inner_iters.toNat] A := by
  have hQ : (S * Sᵀ) - Matrix.diagonal (fun i => (S * Sᵀ) i i) =
      (Matrix.of fun i j => if i = j then 0 else (S * Sᵀ) i j :
        Matrix (Fin M) (Fin M) ℚ) := by
    ext i j
    by_cases hij : i = j
    · subst hij; simp [Matrix.sub_apply, Matrix.diagonal_apply, Matrix.of_apply]
    · simp [Matrix.sub_apply, Matrix.diagonal_apply, Matrix.of_apply, hij]
  have h : aSweep sqrtFn (X * Sᵀ)
      (Matrix.of fun i j => if i = j then 0 else (S * Sᵀ) i j)
      (fun i => (S * Sᵀ) i i) =
      fun B => (List.finRange M).foldl
        (fun B i => if |(S * Sᵀ) i i| < eps then B
          else Matrix.updateColumn B i (specACol sqrtFn X S B i)) B := by
    funext B
    unfold aSweep
    congr 1
  simp only [aPhase]
  rw [hQ, h]

/-!  Lemmas about the visualizer's per-column normalization and tiling. -/

/-- The initial value of a left fold with `max` is a lower bound. -/
theorem le_foldl_max (l : List ℚ) : ∀ b : ℚ, b ≤ l.foldl max b := by
  induction l with
  | nil => intro b; exact le_refl b
  | cons a l ih => intro b; exact le_trans (le_max_left b a) (ih (max b a))

/-- Every member of a list bounds a left fold with `max` from below. -/
theorem mem_le_foldl_max (l : List ℚ) : ∀ (b a : ℚ), a ∈ l → a ≤ l.foldl max b := by
  induction l with
  | nil => intro b a h; simp at h
  | cons hd tl ih =>
    intro b a h
    rcases List.mem_cons.mp h with h1 | h2
    · subst h1
      exact le_trans (le_max_right b a) (le_foldl_max tl (max b a))
    · exact ih (max b hd) a h2

/-- The per-column maximum of absolute values is non-negative. -/
theorem absMax_nonneg (Lr : ℕ) (f : ℕ → ℕ → ℚ) (j : ℕ) : 0 ≤ absMax Lr f j :=
  le_foldl_max _ 0

/-- Any in-range entry is bounded in absolute value by `absMax`. -/
theorem abs_le_absMax {Lr r : ℕ} (f : ℕ → ℕ → ℚ) (j : ℕ) (hr : r < Lr) :
    |f r j| ≤ absMax Lr f j :=
  mem_le_foldl_max _ 0 _ (List.mem_map.mpr ⟨r, List.mem_range.mpr hr, rfl⟩)

/-- Every in-range renormalized feature value lies in `[-1, 1]`. -/
theorem abs_features_scaled_le_one {Lr r : ℕ} (f : ℕ → ℕ → ℚ) (j : ℕ)
    (hr : r < Lr) : |features_scaled Lr f r j| ≤ 1 := by
  unfold features_scaled
  by_cases h0 : absMax Lr f j = 0
  · rw [if_pos h0, div_one]
    have h1 := abs_le_absMax f j hr
    rw [h0] at h1
    rw [abs_nonpos_iff.mp h1]
    norm_num
  · rw [if_neg h0]
    have hpos : 0 < absMax Lr f j := lt_of_le_of_ne (absMax_nonneg Lr f j) (Ne.symm h0)
    rw [abs_div, abs_of_pos hpos]
    exact div_le_one_of_le₀ (abs_le_absMax f j hr) (le_of_lt hpos)

/-- Writing one tile preserves the invariant that all grid values lie in
`[-1, 1]`, provided the flattened patch size does not exceed the feature
column length. -/
theorem writeTile_bounds {psize cols Lr : ℕ} (f : ℕ → ℕ → ℚ)
    (hL : psize * psize ≤ Lr) (g : ℕ → ℕ → ℚ)
    (hg : ∀ x y, -1 ≤ g x y ∧ g x y ≤ 1) (i : ℕ) :
    ∀ x y, -1 ≤ writeTile psize cols (features_scaled Lr f) g i x y ∧
      writeTile psize cols (features_scaled Lr f) g i x y ≤ 1 := by
  intro x y
  simp only [writeTile]
  split_ifs with hin
  · obtain ⟨h1, h2, h3, h4⟩ := hin
    have hdx : x - (1 + i / cols * (psize + 1)) < psize := by omega
    have hdy : y - (1 + i % cols * (psize + 1)) < psize := by omega
    refine abs_le.mp (abs_features_scaled_le_one f i ?_)
    calc (x - (1 + i / cols * (psize + 1))) * psize + (y - (1 + i % cols * (psize + 1)))
        < (x - (1 + i / cols * (psize + 1))) * psize + psize := Nat.add_lt_add_left hdy _
      _ = ((x - (1 + i / cols * (psize + 1))) + 1) * psize := (Nat.succ_mul _ psize).symm
      _ ≤ psize * psize := Nat.mul_le_mul_right psize hdx
      _ ≤ Lr := hL
  · exact hg x y

/-- Tiles never touch grid row `0` (the top border row). -/
theorem writeTile_row_zero {psize cols : ℕ} (scaled g : ℕ → ℕ → ℚ) (i y : ℕ) :
    writeTile psize cols scaled g i 0 y = g 0 y := by
  simp only [writeTile]
  rw [if_neg]
  rintro ⟨h1, -⟩
  omega

/-- Filling any list of tiles preserves the `[-1, 1]` bound on all grid
values. -/
theorem foldl_writeTile_bounds {psize cols Lr : ℕ} (f : ℕ → ℕ → ℚ)
    (hL : psize * psize ≤ Lr) (lst : List ℕ) :
    ∀ g, (∀ x y, -1 ≤ g x y ∧ g x y ≤ 1) →
      ∀ x y, -1 ≤ (lst.foldl (writeTile psize cols (features_scaled Lr f)) g) x y ∧
        (lst.foldl (writeTile psize cols (features_scaled Lr f)) g) x y ≤ 1 := by
  induction lst with
  | nil => intro g hg; exact hg
  | cons i lst ih =>
    intro g hg
    exact ih _ (writeTile_bounds f hL g hg i)

/-- Filling any list of tiles leaves grid row `0` at the background value. -/
theorem foldl_writeTile_row_zero {psize cols : ℕ} (scaled : ℕ → ℕ → ℚ)
    (lst : List ℕ) :
    ∀ g, (∀ y, g 0 y = -1) →
      ∀ y, (lst.foldl (writeTile psize cols scaled) g) 0 y = -1 := by
  induction lst with
  | nil => intro g hg; exact hg
  | cons i lst ih =>
    intro g hg
    refine ih _ fun y => ?_
    rw [writeTile_row_zero]
    exact hg y

/-- C8: for a features matrix whose row count `L` is not a perfect square,
the visualization operations — `_build_display_grid` itself and both of
its consumers `display_network` and `get_network_as_image` — fail with the
square-patch error reported to the caller, while the optimizer `sc_l1`
never produces any error on any input (the error originates only in the
visualization collaborator). -/
theorem c8_nonsquare_visualization_error (Lr Mc : ℕ) (features : ℕ → ℕ → ℚ)
    (rows : ℤ) (hns : ¬ ∃ k : ℕ, k * k = Lr) :
    _build_display_grid Lr Mc features rows =
        Except.error "Each feature column must represent a square patch." ∧
      display_network Lr Mc features rows =
        Except.error "Each feature column must represent a square patch." ∧
      get_network_as_image Lr Mc features rows =
        Except.error "Each feature column must represent a square patch." ∧
      ∀ {L M N : ℕ} (sqrtFn : ℚ → ℚ) (X : Matrix (Fin L) (Fin N) ℚ)
        (A : Matrix (Fin L) (Fin M) ℚ) (S : Matrix (Fin M) (Fin N) ℚ)
        (sp mn : ℚ) (it iit : ℤ),
        (sc_l1 sqrtFn X A S sp mn it iit).isOk = true := by
  have hsq : Nat.sqrt Lr * Nat.sqrt Lr ≠ Lr := fun hh =>
    hns ((Nat.exists_mul_self Lr).mpr hh)
  have hb : _build_display_grid Lr Mc features rows =
      Except.error "Each feature column must represent a square patch." := by
    simp only [_build_display_grid]
    rw [if_pos hsq]
  refine ⟨hb, ?_, ?_, ?_⟩
  · unfold display_network
    rw [hb]
    rfl
  · unfold get_network_as_image
    exact hb
  · intro L M N sqrtFn X A S sp mn it iit
    rfl

/-- Witness for C8 at the concrete non-square row count `L = 2`. -/
theorem c8_nonsquare_visualization_error_witness :
    (¬ ∃ k : ℕ, k * k = 2) ∧
      _build_display_grid 2 1 feat0 1 =
        Except.error "Each feature column must represent a square patch." := by
  have hs2 : Nat.sqrt 2 = 1 := by
    have ha : 1 ≤ Nat.sqrt 2 := Nat.le_sqrt.mpr (by norm_num)
    have hbd : Nat.sqrt 2 < 2 := Nat.sqrt_lt.mpr (by norm_num)
    omega
  have hns : ¬ ∃ k : ℕ, k * k = 2 := by
    rw [Nat.exists_mul_self, hs2]
    norm_num
  exact ⟨hns, (c8_nonsquare_visualization_error 2 1 feat0 1 hns).1⟩

/-- C9: for every successful (square-patch) grid build, every entry of the
returned grid lies in `[-1, 1]`; moreover the top border row holds the
background value `-1`, and a column whose maximum absolute value is `0`
(an all-zero atom column) is rendered as zeros because the divisor `0` is
replaced by `1`. -/
theorem c9_grid_entries_in_unit_interval (Lr Mc : ℕ) (features : ℕ → ℕ → ℚ)
    (rows : ℤ) (g : DisplayGrid)
    (h : _build_display_grid Lr Mc features rows = Except.ok g) :
    (∀ x y, -1 ≤ g.entry x y ∧ g.entry x y ≤ 1) ∧
      (∀ y, g.entry 0 y = -1) ∧
      (∀ r j, r < Lr → absMax Lr features j = 0 →
        features_scaled Lr features r j = 0) := by
  simp only [_build_display_grid] at h
  split_ifs at h with h1 h2 h3
  all_goals first
    | exact Except.noConfusion h
    | (rw [Except.ok.injEq] at h
       subst h
       push_neg at h1
       exact ⟨foldl_writeTile_bounds features (le_of_eq h1) _ _
                (fun x y => ⟨le_refl _, by norm_num⟩),
              foldl_writeTile_row_zero _ _ _ (fun y => rfl),
              fun r j hr h0 => by
                unfold features_scaled
                rw [if_pos h0, div_one]
                have hb := abs_le_absMax features j hr
                rw [h0] at hb
                exact abs_nonpos_iff.mp hb⟩)

/-- Witness for C9 at the concrete 1×1 features array `feat0`. -/
theorem c9_grid_entries_in_unit_interval_witness :
    _build_display_grid 1 1 feat0 1 = Except.ok visGrid0 ∧
      (-1 ≤ visGrid0.entry 0 0 ∧ visGrid0.entry 0 0 ≤ 1) :=
  ⟨rfl, (c9_grid_entries_in_unit_interval 1 1 feat0 1 visGrid0 rfl).1 0 0⟩

end SCB
